import Mathlib

/-!
# Registry credential output writer (`regcreds/creds_output_writer.go`)

A shallow embedding of `GenerateCredsOutput` and `BuildOutputEntry` together
with the parts of the Go runtime they call.

* `time`: a `Time` is an instant with the offset of its location; `Format`
  follows Go's `absDate`, `absClock` and `appendInt` for the verbs of the
  package's layout.
* `yaml.v2`: a value becomes a tree of nodes as its struct tags say
  (`omitempty`, sorted map keys); turning the tree into bytes is left to the
  emitter carried by `Env`, and turning bytes back into a tree to a scanner
  the statements take as a parameter.  Reading a tree back into the structs
  is modelled, since `Unmarshal` is not among the sources.
* `os` and `logrus`: every call to the outside is recorded in the `trace` of
  an explicit `World`, which also holds the files; what the outside answers
  (working directory, clock, which paths cannot be opened or written) is the
  `Env`.

Definitions come first, the theorems after them.
-/

namespace Regcreds

/-! ## Go `time`: instants, civil fields and `Format` -/

/-- A Go `time.Time`: an instant (Unix seconds, an `int64`, and nanoseconds)
together with the offset east of UTC, in seconds, that the value's `Location`
has at that instant.  `time.UTC` is offset `0`. -/
structure Time where
  sec : Int
  nsec : Nat
  offset : Int
deriving DecidableEq, Repr

/-- Go `Time.UTC`: the same instant with the location set to UTC. -/
def Time.UTC (t : Time) : Time := { t with offset := 0 }

def secondsPerMinute : Nat := 60

def secondsPerHour : Nat := 60 * secondsPerMinute

def secondsPerDay : Nat := 24 * secondsPerHour

def daysPer400Years : Nat := 365 * 400 + 97

def daysPer100Years : Nat := 365 * 100 + 24

def daysPer4Years : Nat := 365 * 4 + 1

/-- Year zero of Go's absolute time scale. -/
def absoluteZeroYear : Int := -292277022399

/-- Go `unixToInternal + internalToAbsolute`, in seconds. -/
def unixToAbsolute : Int := 9223372028715321600

/-- Go `Time.abs`: seconds since the absolute zero year as a `uint64`, the
location's offset added. -/
def Time.abs (t : Time) : Nat :=
  ((t.sec + t.offset + unixToAbsolute) % 18446744073709551616).toNat

/-- Go `absClock`. -/
def absClock (abs : Nat) : Nat × Nat × Nat :=
  let sec := abs % secondsPerDay
  let hour := sec / secondsPerHour
  let sec := sec - hour * secondsPerHour
  let min := sec / secondsPerMinute
  let sec := sec - min * secondsPerMinute
  (hour, min, sec)

/-- Go `isLeap`. -/
def isLeap (year : Int) : Bool :=
  year % 4 == 0 && (year % 100 != 0 || year % 400 == 0)

/-- Go `daysBefore`: days in a non-leap year before each month. -/
def daysBefore : List Nat :=
  [0, 31, 31 + 28, 31 + 28 + 31, 31 + 28 + 31 + 30, 31 + 28 + 31 + 30 + 31,
   31 + 28 + 31 + 30 + 31 + 30, 31 + 28 + 31 + 30 + 31 + 30 + 31,
   31 + 28 + 31 + 30 + 31 + 30 + 31 + 31,
   31 + 28 + 31 + 30 + 31 + 30 + 31 + 31 + 30,
   31 + 28 + 31 + 30 + 31 + 30 + 31 + 31 + 30 + 31,
   31 + 28 + 31 + 30 + 31 + 30 + 31 + 31 + 30 + 31 + 30,
   31 + 28 + 31 + 30 + 31 + 30 + 31 + 31 + 30 + 31 + 30 + 31]

/-- The year and the zero-based day of the year: the first half of Go
`absDate`. -/
def absYearDay (abs : Nat) : Int × Nat :=
  let d := abs / secondsPerDay
  -- 400-year cycles
  let n := d / daysPer400Years
  let y := 400 * n
  let d := d - daysPer400Years * n
  -- 100-year cycles
  let n := d / daysPer100Years
  let n := n - n / 4
  let y := y + 100 * n
  let d := d - daysPer100Years * n
  -- 4-year cycles
  let n := d / daysPer4Years
  let y := y + 4 * n
  let d := d - daysPer4Years * n
  -- years within a 4-year cycle
  let n := d / 365
  let n := n - n / 4
  let y := y + n
  let d := d - 365 * n
  ((y : Int) + absoluteZeroYear, d)

/-- The month (January is 1) and the day of the month from the zero-based day
of the year: the second half of Go `absDate`. -/
def monthDay (leap : Bool) (yday : Nat) : Nat × Nat :=
  if leap && yday == 31 + 29 - 1 then (2, 29)
  else
    let day := if leap && decide (yday > 31 + 29 - 1) then yday - 1 else yday
    let month := day / 31
    let stop := daysBefore.getD (month + 1) 0
    if day ≥ stop then (month + 1 + 1, day - stop + 1)
    else (month + 1, day - daysBefore.getD month 0 + 1)

/-- Go `absDate(abs, true)`: year, month, day of the month. -/
def absDate (abs : Nat) : Int × Nat × Nat :=
  let yd := absYearDay abs
  let md := monthDay (isLeap yd.1) yd.2
  (yd.1, md.1, md.2)

/-- The decimal digits of `u`, most significant first: the buffer Go
`appendInt` fills from the right, one digit per pass of its loop (`fuel`
bounds the passes; `u + 1` always suffices). -/
def decimal : Nat → Nat → List Char → List Char
  | 0, _, acc => acc
  | fuel + 1, u, acc =>
    if u ≥ 10 then decimal fuel (u / 10) (Char.ofNat (48 + u % 10) :: acc)
    else Char.ofNat (48 + u) :: acc

/-- Go `appendInt`: a sign for a negative `x`, then the decimal digits
zero-padded to at least `width`. -/
def appendInt (b : List Char) (x : Int) (width : Nat) : List Char :=
  let b := if x < 0 then b ++ ['-'] else b
  let buf := decimal (x.natAbs + 1) x.natAbs []
  b ++ List.replicate (width - buf.length) '0' ++ buf

/-- The layout elements `time.Format` distinguishes.  Only the verbs that
occur in this package's layout are modelled; every other character of a
layout is literal text. -/
inductive Chunk where
  | stdLongYear
  | stdZeroMonth
  | stdZeroDay
  | stdHour
  | stdZeroMinute
  | stdZeroSecond
  | text (c : Char)
deriving DecidableEq, Repr

/-- Go `nextStdChunk`, iterated over a layout, for the verbs `2006`, `01`,
`02`, `15`, `04` and `05`.  The characters Go reads as other verbs (a lone
`1` or `2`, `Jan`, `Mon`, `MST`, `PM`, `Z07`, ...) do not occur in
`ECSCredFileTimeFmt`, whose final `Z` is followed by nothing and so is
literal text. -/
def layoutChunks : List Char → List Chunk
  | '2' :: '0' :: '0' :: '6' :: rest => Chunk.stdLongYear :: layoutChunks rest
  | '0' :: '1' :: rest => Chunk.stdZeroMonth :: layoutChunks rest
  | '0' :: '2' :: rest => Chunk.stdZeroDay :: layoutChunks rest
  | '1' :: '5' :: rest => Chunk.stdHour :: layoutChunks rest
  | '0' :: '4' :: rest => Chunk.stdZeroMinute :: layoutChunks rest
  | '0' :: '5' :: rest => Chunk.stdZeroSecond :: layoutChunks rest
  | c :: rest => Chunk.text c :: layoutChunks rest
  | [] => []

/-- One step of the loop of Go `Time.appendFormat`. -/
def appendChunk (abs : Nat) (b : List Char) : Chunk → List Char
  | Chunk.stdLongYear => appendInt b (absDate abs).1 4
  | Chunk.stdZeroMonth => appendInt b (absDate abs).2.1 2
  | Chunk.stdZeroDay => appendInt b (absDate abs).2.2 2
  | Chunk.stdHour => appendInt b (absClock abs).1 2
  | Chunk.stdZeroMinute => appendInt b (absClock abs).2.1 2
  | Chunk.stdZeroSecond => appendInt b (absClock abs).2.2 2
  | Chunk.text c => b ++ [c]

/-- Go `Time.Format`. -/
def Time.Format (t : Time) (layout : String) : String :=
  String.mk ((layoutChunks layout.data).foldl (appendChunk t.abs) [])

/-! ## The package's constants and types -/

/-- The timestamp format to use on `registry-creds up` outputs. -/
def ECSCredFileTimeFmt : String := "20060102T150405Z"

/-- The base of the output file's name. -/
def ecsCredFileBaseName : String := "ecs-registry-creds"

/-- The credential ARN, key, and associated container names for a registry. -/
structure CredsOutputEntry where
  CredentialARN : String
  KMSKeyID : String
  ContainerNames : List String
deriving DecidableEq, Repr

/-- A Go `map[string]CredsOutputEntry`, as the list of its entries.  The keys
of a Go map are distinct; the order of the list carries no meaning. -/
abbrev CredsMap := List (String × CredsOutputEntry)

/-- The task execution role and the credentials of each registry. -/
structure CredResources where
  TaskExecutionRole : String
  ContainerCredentials : CredsMap
deriving DecidableEq, Repr

/-- The content of the output file. -/
structure RegistryCredsOutput where
  Version : String
  CredentialResources : CredResources
deriving DecidableEq, Repr

/-! ## The YAML form of a document

yaml.v2 turns a Go value into a tree of nodes, following the struct tags, and
then writes the tree as text; the text layer is the emitter of `Env`. -/

/-- A YAML document as a tree of nodes.  Mapping keys are always strings
here: struct field names and the keys of a `map[string]...`. -/
inductive Node where
  | scalar (value : String)
  | sequence (items : List Node)
  | mapping (pairs : List (String × Node))

/-- One struct field as yaml.v2 `structv` emits it: the pair `key: value`,
left out when the field is tagged `omitempty` and holds its zero value. -/
def structField (key : String) (omitEmpty isZero : Bool) (value : Node) :
    List (String × Node) :=
  if omitEmpty && isZero then [] else [(key, value)]

/-- A `[]string` as a YAML sequence of scalars. -/
def stringsNode (xs : List String) : Node :=
  Node.sequence (xs.map Node.scalar)

/-- The mapping yaml.v2 writes for a `CredsOutputEntry`, following its struct
tags `secret_manager_arn`, `kms_key_id,omitempty` and `container_names`. -/
def CredsOutputEntry.toNode (e : CredsOutputEntry) : Node :=
  Node.mapping
    (structField "secret_manager_arn" false (e.CredentialARN == "") (Node.scalar e.CredentialARN)
      ++ structField "kms_key_id" true (e.KMSKeyID == "") (Node.scalar e.KMSKeyID)
      ++ structField "container_names" false e.ContainerNames.isEmpty
          (stringsNode e.ContainerNames))

/-- The order in which yaml.v2 `mapv` writes the entries of a map: sorted by
key with the library's key comparison `less`. -/
def sortedByKey (less : String → String → Bool) (m : CredsMap) : CredsMap :=
  m.insertionSort (fun a b => less a.1 b.1 = true)

/-- The mapping yaml.v2 writes for a `map[string]CredsOutputEntry`. -/
def credsMapNode (less : String → String → Bool) (m : CredsMap) : Node :=
  Node.mapping ((sortedByKey less m).map (fun kv => (kv.1, kv.2.toNode)))

/-- The mapping for a `CredResources`, following its struct tags
`task_execution_role` and `container_credentials`. -/
def CredResources.toNode (less : String → String → Bool) (r : CredResources) : Node :=
  Node.mapping
    (structField "task_execution_role" false (r.TaskExecutionRole == "")
        (Node.scalar r.TaskExecutionRole)
      ++ structField "container_credentials" false r.ContainerCredentials.isEmpty
          (credsMapNode less r.ContainerCredentials))

/-- The mapping for a `RegistryCredsOutput`: the untagged field `Version` gets
the lower-cased field name as its key, `CredentialResources` is tagged
`registry_credential_outputs`. -/
def RegistryCredsOutput.toNode (less : String → String → Bool) (o : RegistryCredsOutput) :
    Node :=
  Node.mapping
    (structField "version" false (o.Version == "") (Node.scalar o.Version)
      ++ structField "registry_credential_outputs" false false
          (o.CredentialResources.toNode less))

/-- The value of the first pair with the given key in a mapping node. -/
def Node.field (key : String) : Node → Option Node
  | Node.mapping pairs => pairs.lookup key
  | _ => none

/-- The keys of a mapping node, in document order. -/
def Node.keys : Node → List String
  | Node.mapping pairs => pairs.map Prod.fst
  | _ => []

/-! ### Reading a document back

yaml.v2 `Unmarshal` is not among this package's sources.  It is modelled here
for the documents `toNode` builds, from the spec's wire format (the field
names of section 6) and its parse-back property (section 8: an empty
encryption key is read back from the field's absence), together with the one
rule of yaml.v2 that a user-chosen map key can trigger: a plain `<<` key is a
merge key.  An `Unmarshal` that reports an error is `none`. -/

/-- Modelled from the spec: the part of yaml.v2 `Unmarshal`, absent from the
sources, that reads a scalar node into a Go `string`. -/
def decodeString : Node → Option String
  | Node.scalar s => some s
  | _ => none

/-- Modelled from the spec: the part of yaml.v2 `Unmarshal`, absent from the
sources, that reads the items of a sequence into Go `string`s, one by one. -/
def decodeStringItems : List Node → Option (List String)
  | [] => some []
  | n :: ns =>
    match decodeString n, decodeStringItems ns with
    | some s, some ss => some (s :: ss)
    | _, _ => none

/-- Modelled from the spec: the part of yaml.v2 `Unmarshal`, absent from the
sources, that reads a sequence node into a Go `[]string`. -/
def decodeStrings : Node → Option (List String)
  | Node.sequence items => decodeStringItems items
  | _ => none

/-- Modelled from the spec: the part of yaml.v2 `Unmarshal`, absent from the
sources, that reads one `key: value` pair into a `CredsOutputEntry` by the
field names `secret_manager_arn`, `kms_key_id` and `container_names`; a key
that names no field is skipped. -/
def decodeEntryField (e : CredsOutputEntry) (kv : String × Node) : Option CredsOutputEntry :=
  if kv.1 = "secret_manager_arn" then
    (decodeString kv.2).map (fun s => { e with CredentialARN := s })
  else if kv.1 = "kms_key_id" then
    (decodeString kv.2).map (fun s => { e with KMSKeyID := s })
  else if kv.1 = "container_names" then
    (decodeStrings kv.2).map (fun xs => { e with ContainerNames := xs })
  else some e

/-- Modelled from the spec: the part of yaml.v2 `Unmarshal`, absent from the
sources, that reads a mapping node into a `CredsOutputEntry`, starting from
the zero value, so that an absent `kms_key_id` reads back as the empty key. -/
def decodeEntry : Node → Option CredsOutputEntry
  | Node.mapping pairs => pairs.foldlM decodeEntryField ⟨"", "", []⟩
  | _ => none

/-- Go `m[k] = v` on a map held as a list of entries. -/
def setMapIndex (m : CredsMap) (k : String) (v : CredsOutputEntry) : CredsMap :=
  if k ∈ m.map Prod.fst then m.map (fun kv => if kv.1 = k then (k, v) else kv)
  else m ++ [(k, v)]

mutual
/-- Modelled from the spec: the part of yaml.v2 `Unmarshal`, absent from the
sources, that reads the pairs of a mapping into a `map[string]CredsOutputEntry`,
in document order.  yaml.v2 writes the key `<<` plain, as it does every string
that resolves to a string, and reads a plain `<<` key as a merge key: its
value is not stored under `<<` but merged into the map. -/
def decodeCredsPairs (m : CredsMap) : List (String × Node) → Option CredsMap
  | [] => some m
  | (k, v) :: rest =>
    if k = "<<" then
      match mergeCreds m v with
      | some merged => decodeCredsPairs merged rest
      | none => none
    else
      match decodeEntry v with
      | some e => decodeCredsPairs (setMapIndex m k e) rest
      | none => none
/-- Modelled from the spec: yaml.v2 `merge`, absent from the sources: the value
of a merge key is a mapping, read into the map itself, or a sequence of
mappings; anything else is an error. -/
def mergeCreds (m : CredsMap) : Node → Option CredsMap
  | Node.mapping pairs => decodeCredsPairs m pairs
  | Node.sequence items => mergeCredsItems m items
  | Node.scalar _ => none
/-- Modelled from the spec: yaml.v2 `merge` on a sequence, absent from the
sources: the mappings are merged last to first, so that earlier ones win. -/
def mergeCredsItems (m : CredsMap) : List Node → Option CredsMap
  | [] => some m
  | n :: ns =>
    match mergeCredsItems m ns with
    | some merged => mergeCredsMapping merged n
    | none => none
/-- Modelled from the spec: one item of a merged sequence, which has to be a
mapping. -/
def mergeCredsMapping (m : CredsMap) : Node → Option CredsMap
  | Node.mapping pairs => decodeCredsPairs m pairs
  | _ => none
end

/-- A Go `[]byte`. -/
abbrev Bytes := List Nat

/-- A Go `error` value. -/
abbrev Error := String

/-- The calls `GenerateCredsOutput` makes to the outside, in the order made. -/
inductive Event where
  | yamlMarshal
  | osGetwd
  | timeNow
  | osCreate (name : String)
  | logInfo (msg : String)
  | fileWrite (name : String) (n : Nat)
  | fileClose (name : String)
deriving DecidableEq, Repr

/-- What the outside answers: the YAML emitter and its key order, the working
directory, the clock, the platform's path separator, and which files cannot
be opened or written. -/
structure Env where
  yamlEmit : Node → Except Error Bytes
  keyLess : String → String → Bool
  getwd : Except Error String
  now : Time
  pathSeparator : Char
  openErr : String → Option Error
  writeErr : String → Bytes → Option (Nat × Error)

/-- The state the calls act on: the content of each file and the calls made
so far. -/
structure World where
  files : String → Option Bytes
  trace : List Event

/-- The world after one more call. -/
def World.call (w : World) (e : Event) : World :=
  { w with trace := w.trace ++ [e] }

/-- The world after the file `name` has been given `content`. -/
def World.setFile (w : World) (name : String) (content : Bytes) : World :=
  { w with files := fun p => if p = name then some content else w.files p }

/-- `yaml.Marshal` of the output document. -/
def yamlMarshal (env : Env) (o : RegistryCredsOutput) : Except Error Bytes :=
  env.yamlEmit (o.toNode env.keyLess)

/-- The flags of `os.OpenFile` that matter here. -/
structure OpenFlag where
  create : Bool
  excl : Bool
  trunc : Bool

/-- An open file: its name as given to `os.Create` and the write position. -/
structure File where
  name : String
  offset : Nat
deriving DecidableEq, Repr

/-- Go `os.OpenFile`. -/
def OpenFile (env : Env) (w : World) (name : String) (flag : OpenFlag) :
    Except Error File × World :=
  match env.openErr name with
  | some err => (Except.error err, w)
  | none =>
    match w.files name with
    | some _ =>
      if flag.create && flag.excl then (Except.error "file exists", w)
      else (Except.ok ⟨name, 0⟩, if flag.trunc then w.setFile name [] else w)
    | none =>
      if flag.create then (Except.ok ⟨name, 0⟩, w.setFile name [])
      else (Except.error "no such file or directory", w)

/-- Go `os.Create`: `OpenFile(name, O_RDWR|O_CREATE|O_TRUNC, 0666)`. -/
def Create (env : Env) (w : World) (name : String) : Except Error File × World :=
  OpenFile env (w.call (Event.osCreate name)) name ⟨true, false, true⟩

/-- The content of a file after `b` is written at position `off`. -/
def writeAt (old : Bytes) (off : Nat) (b : Bytes) : Bytes :=
  old.take off ++ b ++ old.drop (off + b.length)

/-- Go `File.Write`: all of `b`, or on failure the part of it that got out. -/
def File.Write (env : Env) (w : World) (f : File) (b : Bytes) : Option Error × World :=
  let old := (w.files f.name).getD []
  match env.writeErr f.name b with
  | some (n, err) =>
    (some err,
      (w.setFile f.name (writeAt old f.offset (b.take n))).call
        (Event.fileWrite f.name (b.take n).length))
  | none =>
    (none, (w.setFile f.name (writeAt old f.offset b)).call (Event.fileWrite f.name b.length))

/-! ## The package's functions -/

/-- Marshals the credential output into YAML and outputs it to a file.  The
result is the Go `error` (`none` for `nil`) and the world afterwards. -/
def GenerateCredsOutput (env : Env) (w : World) (creds : CredsMap)
    (roleName outputDir : String) (policyCreatTime : Option Time) : Option Error × World :=
  let outputResources : CredResources :=
    { ContainerCredentials := creds, TaskExecutionRole := roleName }
  let regOutput : RegistryCredsOutput :=
    { Version := "1", CredentialResources := outputResources }
  let w := w.call Event.yamlMarshal
  match yamlMarshal env regOutput with
  | Except.error err => (some err, w)
  | Except.ok credBytes =>
    let wdir : Except Error String × World :=
      if outputDir = "" then (env.getwd, w.call Event.osGetwd) else (Except.ok outputDir, w)
    match wdir with
    | (Except.error err, w) => (some err, w)
    | (Except.ok outputFileDir, w) =>
      let w := w.call Event.timeNow
      let timeStamp : Time :=
        match policyCreatTime with
        | some t => t
        | none => env.now.UTC
      let timestampedSuffix := "_" ++ timeStamp.Format ECSCredFileTimeFmt ++ ".yml"
      match Create env w (outputFileDir ++ String.singleton env.pathSeparator
          ++ ecsCredFileBaseName ++ timestampedSuffix) with
      | (Except.error err, w) => (some err, w)
      | (Except.ok file, w) =>
        let w := w.call
          (Event.logInfo ("Writing registry credential output to new file " ++ file.name))
        let written := file.Write env w credBytes
        -- the deferred `file.Close()`
        let w := written.2.call (Event.fileClose file.name)
        match written.1 with
        | some err => (some err, w)
        | none => (none, w)

/-- Returns a `CredsOutputEntry` with the provided parameters. -/
def BuildOutputEntry (arn : String) (key : String) (containers : List String) :
    CredsOutputEntry :=
  { CredentialARN := arn, KMSKeyID := key, ContainerNames := containers }

/-! ## Vocabulary of the statements -/

/-- The character of a decimal digit. -/
def digitChar (d : Nat) : Char := Char.ofNat (48 + d)

/-- The digits of `u` as `appendInt` produces them. -/
def digitsOf (u : Nat) : List Char := decimal (u + 1) u []

/-- Reads a run of decimal digits back into the number it writes. -/
def parseDecimal (l : List Char) : Nat :=
  l.foldl (fun a c => 10 * a + (c.toNat - 48)) 0

/-- Reads an optionally signed run of decimal digits. -/
def parseInt : List Char → Int
  | '-' :: rest => -(parseDecimal rest : Int)
  | l => (parseDecimal l : Int)

/-- Go `Time.Date`: year, month and day in the time's own location. -/
def Time.Date (t : Time) : Int × Nat × Nat := absDate t.abs

/-- Go `Time.Clock`: hour, minute and second in the time's own location. -/
def Time.Clock (t : Time) : Nat × Nat × Nat := absClock t.abs

/-- The name, without its directory, of the file `GenerateCredsOutput` creates
for a time stamp: `ecsCredFileBaseName + timestampedSuffix`. -/
def credsFileName (timeStamp : Time) : String :=
  ecsCredFileBaseName ++ ("_" ++ timeStamp.Format ECSCredFileTimeFmt ++ ".yml")

/-- The document `GenerateCredsOutput` builds from its arguments. -/
def regOutput (creds : CredsMap) (roleName : String) : RegistryCredsOutput :=
  { Version := "1",
    CredentialResources := { ContainerCredentials := creds, TaskExecutionRole := roleName } }

/-- The target directory: `outputDir` when it is not empty, else the working
directory. -/
def resolveDir (env : Env) (outputDir : String) : Except Error String :=
  if outputDir = "" then env.getwd else Except.ok outputDir

/-- The time stamp of the file name: the supplied creation time, else now in
UTC. -/
def timeStampOf (env : Env) (policyCreatTime : Option Time) : Time :=
  match policyCreatTime with
  | some t => t
  | none => env.now.UTC

/-- The path handed to `os.Create`. -/
def credsFilePath (dir : String) (sep : Char) (timeStamp : Time) : String :=
  dir ++ String.singleton sep ++ credsFileName timeStamp

/-- The line handed to `log.Info`. -/
def logLine (name : String) : String :=
  "Writing registry credential output to new file " ++ name

/-- The calls made between two states of the world. -/
def callsMade (before after : World) : List Event :=
  after.trace.drop before.trace.length

/-- The calls made before `os.Create` when serialization and directory
resolution succeed. -/
def preCalls (outputDir : String) : List Event :=
  if outputDir = "" then [Event.yamlMarshal, Event.osGetwd, Event.timeNow]
  else [Event.yamlMarshal, Event.timeNow]

/-- The files after `content` has replaced whatever `name` held. -/
def filesWith (files : String → Option Bytes) (name : String) (content : Bytes) :
    String → Option Bytes :=
  fun p => if p = name then some content else files p

/-- The name of the file an `os.Create` call is for. -/
def Event.created : Event → Option String
  | Event.osCreate name => some name
  | _ => none

/-- The line a `log.Info` call writes. -/
def Event.logged : Event → Option String
  | Event.logInfo msg => some msg
  | _ => none

/-- The error of the first step that fails, the steps taken in the order
serialization, directory resolution, file creation, write; `none` when no step
fails. -/
def firstFailure (env : Env) (creds : CredsMap) (roleName outputDir : String)
    (policyCreatTime : Option Time) : Option Error :=
  match yamlMarshal env (regOutput creds roleName) with
  | Except.error e => some e
  | Except.ok b =>
    match resolveDir env outputDir with
    | Except.error e => some e
    | Except.ok d =>
      match env.openErr
          (d ++ String.singleton env.pathSeparator
            ++ credsFileName (timeStampOf env policyCreatTime)) with
      | some e => some e
      | none =>
        (env.writeErr
          (d ++ String.singleton env.pathSeparator
            ++ credsFileName (timeStampOf env policyCreatTime)) b).map Prod.snd

/-- Two decimal digits. -/
def twoDigits (n : Nat) : List Char := [digitChar (n / 10 % 10), digitChar (n % 10)]

/-- Four decimal digits. -/
def fourDigits (n : Nat) : List Char :=
  [digitChar (n / 1000 % 10), digitChar (n / 100 % 10), digitChar (n / 10 % 10),
    digitChar (n % 10)]

/-- The timestamp as the specification words it: 4-digit year, 2-digit month,
2-digit day, literal `T`, 2-digit hour, minute and second, literal `Z`. -/
def specTimestamp (t : Time) : String :=
  String.mk (fourDigits t.Date.1.toNat ++ twoDigits t.Date.2.1 ++ twoDigits t.Date.2.2
    ++ ['T'] ++ twoDigits t.Clock.1 ++ twoDigits t.Clock.2.1 ++ twoDigits t.Clock.2.2 ++ ['Z'])

/-! ## Concrete environments, worlds and times -/

mutual
/-- A flow-style rendering of a node, the stand-in for the YAML emitter in the
examples. -/
def Node.flow : Node → List Char
  | Node.scalar s => '|' :: s.data ++ ['|']
  | Node.sequence items => '[' :: flowItems items ++ [']']
  | Node.mapping pairs => '<' :: flowPairs pairs ++ ['>']
/-- The items of a sequence, each followed by a comma. -/
def flowItems : List Node → List Char
  | [] => []
  | n :: ns => n.flow ++ ',' :: flowItems ns
/-- The pairs of a mapping, each followed by a comma. -/
def flowPairs : List (String × Node) → List Char
  | [] => []
  | (k, n) :: ps => k.data ++ ':' :: n.flow ++ ',' :: flowPairs ps
end

/-- Lexicographic order on code points, the stand-in for the emitter's key
order in the examples. -/
def lexLess : List Char → List Char → Bool
  | _, [] => false
  | [], _ :: _ => true
  | a :: as, b :: bs => decide (a.toNat < b.toNat) || (a == b && lexLess as bs)

/-- An environment in which every step succeeds. -/
def demoEnv : Env where
  yamlEmit := fun n => Except.ok (n.flow.map Char.toNat)
  keyLess := fun a b => lexLess a.data b.data
  getwd := Except.ok "/home/ecs"
  now := ⟨1700000000, 0, 0⟩
  pathSeparator := '/'
  openErr := fun _ => none
  writeErr := fun _ _ => none

/-- As `demoEnv`, but the working directory cannot be resolved. -/
def noCwdEnv : Env := { demoEnv with getwd := Except.error "getwd: no such file or directory" }

/-- As `demoEnv`, but every write fails before a byte is out. -/
def fullDiskEnv : Env :=
  { demoEnv with writeErr := fun _ _ => some (0, "no space left on device") }

/-- A world with no files, before any call. -/
def demoWorld : World := ⟨fun _ => none, []⟩

/-- Two registries, the second without an encryption key. -/
def demoCreds : CredsMap :=
  [("quay.io", ⟨"arn:secret:b", "arn:kms:k", ["api", "worker"]⟩),
   ("docker.io", ⟨"arn:secret:a", "", ["web"]⟩)]

/-- The characters up to the first `stop`, and those after it. -/
def takeUntil (stop : Char) : List Char → Option (List Char × List Char)
  | [] => none
  | c :: cs =>
    if c = stop then some ([], cs)
    else (takeUntil stop cs).map (fun r => (c :: r.1, r.2))

mutual
/-- The reader of the flow-style rendering, the stand-in for the YAML scanner
in the examples: one node and the characters after it. -/
def scanNode : Nat → List Char → Option (Node × List Char)
  | 0, _ => none
  | _ + 1, [] => none
  | fuel + 1, c :: cs =>
    if c = '|' then (takeUntil '|' cs).map (fun r => (Node.scalar (String.mk r.1), r.2))
    else if c = '[' then (scanItems fuel cs).map (fun r => (Node.sequence r.1, r.2))
    else if c = '<' then (scanPairs fuel cs).map (fun r => (Node.mapping r.1, r.2))
    else none
/-- The items of a sequence up to its closing bracket. -/
def scanItems : Nat → List Char → Option (List Node × List Char)
  | 0, _ => none
  | _ + 1, [] => none
  | fuel + 1, c :: cs =>
    if c = ']' then some ([], cs)
    else
      match scanNode fuel (c :: cs) with
      | some (n, ',' :: rest) => (scanItems fuel rest).map (fun r => (n :: r.1, r.2))
      | _ => none
/-- The pairs of a mapping up to its closing bracket. -/
def scanPairs : Nat → List Char → Option (List (String × Node) × List Char)
  | 0, _ => none
  | _ + 1, [] => none
  | fuel + 1, c :: cs =>
    if c = '>' then some ([], cs)
    else
      match takeUntil ':' (c :: cs) with
      | some (k, rest) =>
        match scanNode fuel rest with
        | some (n, ',' :: rest2) =>
          (scanPairs fuel rest2).map (fun r => ((String.mk k, n) :: r.1, r.2))
        | _ => none
      | none => none
end

/-- The time 2023-01-02T03:04:05Z. -/
def utcTime : Time := ⟨1672628645, 0, 0⟩

/-- The instant 2023-01-02T01:04:05Z, in a zone two hours east of UTC, where
it reads 03:04:05. -/
def zonedTime : Time := ⟨1672621445, 0, 7200⟩

/-- The time 10000-01-01T00:00:00Z. -/
def year10000 : Time := ⟨253402300800, 0, 0⟩

/-! # Theorems -/

/-! ## Decimal rendering -/

theorem decimal_acc (fuel u : Nat) (acc : List Char) :
    decimal fuel u acc = decimal fuel u [] ++ acc := by
  induction fuel generalizing u acc with
  | zero => simp [decimal]
  | succ f ih =>
    unfold decimal
    split
    · rw [ih, ih (u / 10) [Char.ofNat (48 + u % 10)]]
      simp
    · simp

theorem decimal_fuel (f1 f2 u : Nat) (acc : List Char) (h1 : u < f1) (h2 : u < f2) :
    decimal f1 u acc = decimal f2 u acc := by
  induction f1 generalizing f2 u acc with
  | zero => omega
  | succ f ih =>
    cases f2 with
    | zero => omega
    | succ g =>
      unfold decimal
      split
      · exact ih g (u / 10) _ (by omega) (by omega)
      · rfl

theorem digitsOf_lt (u : Nat) (h : u < 10) : digitsOf u = [digitChar u] := by
  simp [digitsOf, decimal, digitChar]
  omega

theorem digitsOf_ge (u : Nat) (h : 10 ≤ u) :
    digitsOf u = digitsOf (u / 10) ++ [digitChar (u % 10)] := by
  unfold digitsOf
  conv_lhs => unfold decimal
  simp only [ge_iff_le, h, if_true]
  rw [decimal_acc, decimal_fuel u (u / 10 + 1) (u / 10) [] (by omega) (by omega)]
  rfl

theorem appendInt_onto (b : List Char) (x : Int) (width : Nat) :
    appendInt b x width = b ++ appendInt [] x width := by
  unfold appendInt
  split <;> simp

theorem appendInt_natCast (n width : Nat) :
    appendInt [] (n : Int) width
      = List.replicate (width - (digitsOf n).length) '0' ++ digitsOf n := by
  simp [appendInt, digitsOf]

theorem appendInt_two (n : Nat) (h : n < 100) :
    appendInt [] (n : Int) 2 = [digitChar (n / 10), digitChar (n % 10)] := by
  rw [appendInt_natCast]
  by_cases h10 : n < 10
  · rw [digitsOf_lt n h10]
    have h0 : n / 10 = 0 := by omega
    have h1 : n % 10 = n := by omega
    rw [h0, h1]
    rfl
  · rw [digitsOf_ge n (by omega), digitsOf_lt (n / 10) (by omega)]
    rfl

theorem appendInt_four (n : Nat) (h : n < 10000) :
    appendInt [] (n : Int) 4
      = [digitChar (n / 1000 % 10), digitChar (n / 100 % 10), digitChar (n / 10 % 10),
          digitChar (n % 10)] := by
  rw [appendInt_natCast]
  by_cases h10 : n < 10
  · rw [digitsOf_lt n h10]
    have e3 : n / 1000 % 10 = 0 := by omega
    have e2 : n / 100 % 10 = 0 := by omega
    have e1 : n / 10 % 10 = 0 := by omega
    have e0 : n % 10 = n := by omega
    rw [e3, e2, e1, e0]
    rfl
  · rw [digitsOf_ge n (by omega)]
    by_cases h100 : n < 100
    · rw [digitsOf_lt (n / 10) (by omega)]
      have e3 : n / 1000 % 10 = 0 := by omega
      have e2 : n / 100 % 10 = 0 := by omega
      have e1 : n / 10 % 10 = n / 10 := by omega
      rw [e3, e2, e1]
      rfl
    · rw [digitsOf_ge (n / 10) (by omega)]
      by_cases h1000 : n < 1000
      · rw [digitsOf_lt (n / 10 / 10) (by omega)]
        have e3 : n / 1000 % 10 = 0 := by omega
        have e2 : n / 100 % 10 = n / 10 / 10 := by omega
        have e1 : n / 10 % 10 = n / 10 % 10 := rfl
        rw [e3, e2]
        rfl
      · rw [digitsOf_ge (n / 10 / 10) (by omega), digitsOf_lt (n / 10 / 10 / 10) (by omega)]
        have e3 : n / 1000 % 10 = n / 10 / 10 / 10 := by omega
        have e2 : n / 100 % 10 = n / 10 / 10 % 10 := by omega
        rw [e3, e2]
        rfl

theorem digitChar_toNat (d : Nat) (h : d < 10) : (digitChar d).toNat = 48 + d := by
  interval_cases d <;> rfl

theorem digitChar_ne_minus (d : Nat) (h : d < 10) : digitChar d ≠ '-' := by
  interval_cases d <;> decide

theorem parseDecimal_snoc (l : List Char) (c : Char) :
    parseDecimal (l ++ [c]) = 10 * parseDecimal l + (c.toNat - 48) := by
  simp [parseDecimal, List.foldl_append]

theorem parseDecimal_digitsOf (u : Nat) : parseDecimal (digitsOf u) = u := by
  induction u using Nat.strong_induction_on with
  | _ u ih =>
    by_cases h : u < 10
    · rw [digitsOf_lt u h]
      simp [parseDecimal, digitChar_toNat u h]
    · rw [digitsOf_ge u (by omega), parseDecimal_snoc, ih (u / 10) (by omega),
        digitChar_toNat (u % 10) (by omega)]
      omega

theorem parseDecimal_zeros (k : Nat) (l : List Char) :
    parseDecimal (List.replicate k '0' ++ l) = parseDecimal l := by
  induction k with
  | zero => simp
  | succ k ih =>
    have h : parseDecimal (List.replicate (k + 1) '0' ++ l)
        = parseDecimal (List.replicate k '0' ++ l) := by
      simp [parseDecimal, List.replicate_succ]
    rw [h, ih]

theorem digitsOf_ne_nil (u : Nat) : digitsOf u ≠ [] := by
  by_cases h : u < 10
  · rw [digitsOf_lt u h]
    simp
  · rw [digitsOf_ge u (by omega)]
    simp

theorem digitsOf_head (u : Nat) (rest : List Char) : digitsOf u ≠ '-' :: rest := by
  induction u using Nat.strong_induction_on generalizing rest with
  | _ u ih =>
    by_cases h : u < 10
    · rw [digitsOf_lt u h]
      intro hc
      exact digitChar_ne_minus u h (List.cons.inj hc).1
    · rw [digitsOf_ge u (by omega)]
      intro hc
      cases hd : digitsOf (u / 10) with
      | nil => exact digitsOf_ne_nil _ hd
      | cons c cs =>
        rw [hd] at hc
        have hc1 : c = '-' := (List.cons.inj hc).1
        exact ih (u / 10) (by omega) cs (by rw [hd, hc1])

theorem parseInt_unsigned (l : List Char) (h : ∀ rest, l ≠ '-' :: rest) :
    parseInt l = (parseDecimal l : Int) := by
  unfold parseInt
  split
  · exact absurd rfl (h _)
  · rfl

theorem padded_head (k u : Nat) (rest : List Char) :
    List.replicate k '0' ++ digitsOf u ≠ '-' :: rest := by
  cases k with
  | zero => simpa using digitsOf_head u rest
  | succ k =>
    intro hc
    rw [List.replicate_succ, List.cons_append] at hc
    exact absurd (List.cons.inj hc).1 (by decide)

/-- Reading back what `appendInt` wrote gives the number written. -/
theorem parseInt_appendInt (x : Int) (width : Nat) : parseInt (appendInt [] x width) = x := by
  by_cases hx : x < 0
  · have h : appendInt [] x width
        = '-' :: (List.replicate (width - (digitsOf x.natAbs).length) '0'
            ++ digitsOf x.natAbs) := by
      simp [appendInt, digitsOf, hx]
    rw [h]
    simp only [parseInt]
    rw [parseDecimal_zeros, parseDecimal_digitsOf]
    omega
  · have h : appendInt [] x width
        = List.replicate (width - (digitsOf x.natAbs).length) '0' ++ digitsOf x.natAbs := by
      simp [appendInt, digitsOf, hx]
    rw [h, parseInt_unsigned _ (padded_head _ _), parseDecimal_zeros, parseDecimal_digitsOf]
    omega

theorem appendInt_injective (x y : Int) (width : Nat)
    (h : appendInt [] x width = appendInt [] y width) : x = y := by
  have hp := congrArg parseInt h
  rwa [parseInt_appendInt, parseInt_appendInt] at hp

/-! ## Ranges of the civil fields -/

theorem absClock_lt (abs : Nat) :
    (absClock abs).1 < 24 ∧ (absClock abs).2.1 < 60 ∧ (absClock abs).2.2 < 60 := by
  simp only [absClock, secondsPerDay, secondsPerHour, secondsPerMinute]
  omega

theorem absYearDay_le (abs : Nat) : (absYearDay abs).2 ≤ 365 := by
  simp only [absYearDay, secondsPerDay, secondsPerHour, secondsPerMinute, daysPer400Years,
    daysPer100Years, daysPer4Years]
  omega

set_option maxRecDepth 100000 in
theorem monthDay_range (leap : Bool) :
    ∀ yday, yday < 366 →
      1 ≤ (monthDay leap yday).1 ∧ (monthDay leap yday).1 ≤ 13 ∧
      1 ≤ (monthDay leap yday).2 ∧ (monthDay leap yday).2 ≤ 31 := by
  cases leap <;> decide

theorem absDate_lt (abs : Nat) : (absDate abs).2.1 < 100 ∧ (absDate abs).2.2 < 100 := by
  have h := monthDay_range (isLeap (absYearDay abs).1) (absYearDay abs).2
    (Nat.lt_succ_of_le (absYearDay_le abs))
  simp only [absDate]
  omega

/-! ## The timestamp of the file name -/

theorem appendChunk_onto (abs : Nat) (b : List Char) (c : Chunk) :
    appendChunk abs b c = b ++ appendChunk abs [] c := by
  cases c <;> simp [appendChunk, appendInt_onto b]

theorem foldl_appendChunk (abs : Nat) (cs : List Chunk) (b : List Char) :
    cs.foldl (appendChunk abs) b = b ++ (cs.map (appendChunk abs [])).flatten := by
  induction cs generalizing b with
  | nil => simp
  | cons c cs ih =>
    rw [List.foldl_cons, ih, appendChunk_onto]
    simp

theorem layoutChunks_fmt :
    layoutChunks ECSCredFileTimeFmt.data
      = [Chunk.stdLongYear, Chunk.stdZeroMonth, Chunk.stdZeroDay, Chunk.text 'T',
          Chunk.stdHour, Chunk.stdZeroMinute, Chunk.stdZeroSecond, Chunk.text 'Z'] := by
  decide

/-- The timestamp as the six calls of `appendInt` and the two literals. -/
theorem Format_fmt (t : Time) :
    t.Format ECSCredFileTimeFmt
      = String.mk (appendInt [] t.Date.1 4 ++ (appendInt [] (t.Date.2.1 : Int) 2
          ++ (appendInt [] (t.Date.2.2 : Int) 2 ++ ('T' :: (appendInt [] (t.Clock.1 : Int) 2
          ++ (appendInt [] (t.Clock.2.1 : Int) 2
          ++ (appendInt [] (t.Clock.2.2 : Int) 2 ++ ['Z']))))))) := by
  unfold Time.Format
  rw [layoutChunks_fmt, foldl_appendChunk]
  simp [appendChunk, Time.Date, Time.Clock]

/-- The model of `Format` on a few instants: an ordinary one, the leap days of
2000 and 2024 (the latter one second before March, with nanoseconds), the
first second of year -1, and an instant read in a zone one hour west of UTC. -/
theorem Format_fmt_examples :
    (Time.mk 1672628645 0 0).Format ECSCredFileTimeFmt = "20230102T030405Z"
      ∧ (Time.mk 951782400 0 0).Format ECSCredFileTimeFmt = "20000229T000000Z"
      ∧ (Time.mk 1709251199 999999999 0).Format ECSCredFileTimeFmt = "20240229T235959Z"
      ∧ (Time.mk (-62198755200) 0 0).Format ECSCredFileTimeFmt = "-00010101T000000Z"
      ∧ (Time.mk 1709251200 0 (-3600)).Format ECSCredFileTimeFmt = "20240229T230000Z" := by
  decide

theorem digitChar_injective (a b : Nat) (ha : a < 10) (hb : b < 10)
    (h : digitChar a = digitChar b) : a = b := by
  have h2 := congrArg Char.toNat h
  rw [digitChar_toNat a ha, digitChar_toNat b hb] at h2
  omega

theorem two_digits_injective (a b : Nat) (ha : a < 100) (hb : b < 100)
    (h1 : digitChar (a / 10) = digitChar (b / 10))
    (h2 : digitChar (a % 10) = digitChar (b % 10)) : a = b := by
  have e1 := digitChar_injective _ _ (by omega) (by omega) h1
  have e2 := digitChar_injective _ _ (by omega) (by omega) h2
  omega

theorem Format_fmt_injective (t u : Time)
    (h : t.Format ECSCredFileTimeFmt = u.Format ECSCredFileTimeFmt) :
    t.Date = u.Date ∧ t.Clock = u.Clock := by
  rw [Format_fmt, Format_fmt] at h
  have hl := congrArg String.data h
  simp only at hl
  obtain ⟨tm, td⟩ := absDate_lt t.abs
  obtain ⟨um, ud⟩ := absDate_lt u.abs
  obtain ⟨th, tmi, ts⟩ := absClock_lt t.abs
  obtain ⟨uh, umi, us⟩ := absClock_lt u.abs
  have tm2 : t.Date.2.1 < 100 := tm
  have td2 : t.Date.2.2 < 100 := td
  have um2 : u.Date.2.1 < 100 := um
  have ud2 : u.Date.2.2 < 100 := ud
  have th2 : t.Clock.1 < 100 := by have : t.Clock.1 < 24 := th; omega
  have tmi2 : t.Clock.2.1 < 100 := by have : t.Clock.2.1 < 60 := tmi; omega
  have ts2 : t.Clock.2.2 < 100 := by have : t.Clock.2.2 < 60 := ts; omega
  have uh2 : u.Clock.1 < 100 := by have : u.Clock.1 < 24 := uh; omega
  have umi2 : u.Clock.2.1 < 100 := by have : u.Clock.2.1 < 60 := umi; omega
  have us2 : u.Clock.2.2 < 100 := by have : u.Clock.2.2 < 60 := us; omega
  rw [appendInt_two _ tm2, appendInt_two _ td2, appendInt_two _ th2, appendInt_two _ tmi2,
    appendInt_two _ ts2, appendInt_two _ um2, appendInt_two _ ud2, appendInt_two _ uh2,
    appendInt_two _ umi2, appendInt_two _ us2] at hl
  obtain ⟨hy, hrest⟩ := List.append_inj' hl (by simp)
  simp only [List.cons_append, List.nil_append, List.cons.injEq, and_true] at hrest
  obtain ⟨m1, m0, d1, d0, -, h1, h0, mi1, mi0, s1, s0⟩ := hrest
  have ey := appendInt_injective _ _ _ hy
  have em := two_digits_injective _ _ tm2 um2 m1 m0
  have ed := two_digits_injective _ _ td2 ud2 d1 d0
  have eh := two_digits_injective _ _ th2 uh2 h1 h0
  have emi := two_digits_injective _ _ tmi2 umi2 mi1 mi0
  have es := two_digits_injective _ _ ts2 us2 s1 s0
  exact ⟨Prod.ext ey (Prod.ext em ed), Prod.ext eh (Prod.ext emi es)⟩

theorem credsFileName_eq_iff (t u : Time) :
    credsFileName t = credsFileName u
      ↔ t.Format ECSCredFileTimeFmt = u.Format ECSCredFileTimeFmt := by
  constructor
  · intro h
    have hd := String.ext_iff.mp h
    simp only [credsFileName, String.data_append, List.append_cancel_left_eq,
      List.append_cancel_right_eq] at hd
    exact String.ext_iff.mpr hd
  · intro h
    simp [credsFileName, h]

theorem credsFileName_fields (t u : Time) :
    credsFileName t = credsFileName u ↔ (t.Date = u.Date ∧ t.Clock = u.Clock) := by
  rw [credsFileName_eq_iff]
  constructor
  · exact Format_fmt_injective t u
  · intro h
    rw [Format_fmt, Format_fmt, h.1, h.2]

theorem append_left_cancel_iff (a b c : String) : a ++ b = a ++ c ↔ b = c := by
  constructor
  · intro h
    have hd := String.ext_iff.mp h
    simp only [String.data_append, List.append_cancel_left_eq] at hd
    exact String.ext_iff.mpr hd
  · intro h
    rw [h]

/-- C10: the file name determines, and is determined by, the year, month, day,
hour, minute and second of the time stamp as `Format` reads them (for a time
in UTC, its UTC fields); nanoseconds play no part, and no bound on the year is
needed.  The same holds of the whole path within one directory. -/
theorem credsFileName_injective_in_seconds (t u : Time) :
    (credsFileName t = credsFileName u ↔ (t.Date = u.Date ∧ t.Clock = u.Clock))
      ∧ ∀ (dir : String) (sep : Char),
          dir ++ String.singleton sep ++ credsFileName t
              = dir ++ String.singleton sep ++ credsFileName u
            ↔ (t.Date = u.Date ∧ t.Clock = u.Clock) := by
  refine ⟨credsFileName_fields t u, ?_⟩
  intro dir sep
  rw [append_left_cancel_iff]
  exact credsFileName_fields t u

/-! ## What one call does -/

theorem World.ext_fields (a b : World) (hf : a.files = b.files) (ht : a.trace = b.trace) :
    a = b := by
  cases a
  cases b
  simp_all

theorem credsFilePath_eq (dir : String) (sep : Char) (t : Time) :
    dir ++ String.singleton sep ++ ecsCredFileBaseName
        ++ ("_" ++ t.Format ECSCredFileTimeFmt ++ ".yml")
      = credsFilePath dir sep t := by
  simp [credsFilePath, credsFileName, String.append_assoc]

theorem writeAt_empty (b : Bytes) : writeAt [] 0 b = b := by
  simp [writeAt]

/-- `os.Create` on a file that can be opened: the file is there and empty
afterwards, whether or not it existed. -/
theorem Create_ok (env : Env) (w : World) (name : String) (h : env.openErr name = none) :
    Create env w name
      = (Except.ok ⟨name, 0⟩, ⟨filesWith w.files name [], w.trace ++ [Event.osCreate name]⟩) := by
  unfold Create OpenFile
  simp only [h, World.call]
  split <;> rfl

theorem Create_error (env : Env) (w : World) (name : String) (e : Error)
    (h : env.openErr name = some e) :
    Create env w name = (Except.error e, ⟨w.files, w.trace ++ [Event.osCreate name]⟩) := by
  unfold Create OpenFile
  simp [h, World.call]

/-- From `os.Create` on: create, log, write, close. -/
theorem generate_tail (env : Env) (w0 : World) (path : String) (b : Bytes) :
    (match Create env w0 path with
      | (Except.error err, w) => ((some err : Option Error), w)
      | (Except.ok file, w) =>
        let w := w.call
          (Event.logInfo ("Writing registry credential output to new file " ++ file.name))
        let written := file.Write env w b
        let w := written.2.call (Event.fileClose file.name)
        match written.1 with
        | some err => (some err, w)
        | none => (none, w))
      = match env.openErr path with
        | some e => (some e, ⟨w0.files, w0.trace ++ [Event.osCreate path]⟩)
        | none =>
          match env.writeErr path b with
          | some (n, e) =>
            (some e, ⟨filesWith w0.files path (b.take n),
              w0.trace ++ [Event.osCreate path, Event.logInfo (logLine path),
                Event.fileWrite path (b.take n).length, Event.fileClose path]⟩)
          | none =>
            (none, ⟨filesWith w0.files path b,
              w0.trace ++ [Event.osCreate path, Event.logInfo (logLine path),
                Event.fileWrite path b.length, Event.fileClose path]⟩) := by
  cases ho : env.openErr path with
  | some e => rw [Create_error env w0 path e ho]
  | none =>
    rw [Create_ok env w0 path ho]
    simp only [File.Write, World.call, World.setFile, filesWith, if_true, Option.getD_some,
      writeAt_empty, logLine]
    cases hw : env.writeErr path b with
    | some ne =>
      obtain ⟨n, e⟩ := ne
      simp only [Prod.mk.injEq, true_and]
      apply World.ext_fields
      · funext p
        by_cases hp : p = path <;> simp [hp, filesWith]
      · simp
    | none =>
      simp only [Prod.mk.injEq, true_and]
      apply World.ext_fields
      · funext p
        by_cases hp : p = path <;> simp [hp, filesWith]
      · simp

/-- The outcome of a call, step by step. -/
theorem generate_outcome (env : Env) (w : World) (creds : CredsMap)
    (roleName outputDir : String) (policyCreatTime : Option Time) :
    GenerateCredsOutput env w creds roleName outputDir policyCreatTime =
      match yamlMarshal env (regOutput creds roleName) with
      | Except.error e => (some e, ⟨w.files, w.trace ++ [Event.yamlMarshal]⟩)
      | Except.ok b =>
        match resolveDir env outputDir with
        | Except.error e => (some e, ⟨w.files, w.trace ++ [Event.yamlMarshal, Event.osGetwd]⟩)
        | Except.ok d =>
          match env.openErr
              (credsFilePath d env.pathSeparator (timeStampOf env policyCreatTime)) with
          | some e =>
            (some e, ⟨w.files, w.trace ++ preCalls outputDir ++
              [Event.osCreate
                (credsFilePath d env.pathSeparator (timeStampOf env policyCreatTime))]⟩)
          | none =>
            match env.writeErr
                (credsFilePath d env.pathSeparator (timeStampOf env policyCreatTime)) b with
            | some (n, e) =>
              (some e,
                ⟨filesWith w.files
                    (credsFilePath d env.pathSeparator (timeStampOf env policyCreatTime))
                    (b.take n),
                  w.trace ++ preCalls outputDir ++
                    [Event.osCreate
                        (credsFilePath d env.pathSeparator (timeStampOf env policyCreatTime)),
                      Event.logInfo (logLine
                        (credsFilePath d env.pathSeparator (timeStampOf env policyCreatTime))),
                      Event.fileWrite
                        (credsFilePath d env.pathSeparator (timeStampOf env policyCreatTime))
                        (b.take n).length,
                      Event.fileClose
                        (credsFilePath d env.pathSeparator (timeStampOf env policyCreatTime))]⟩)
            | none =>
              (none,
                ⟨filesWith w.files
                    (credsFilePath d env.pathSeparator (timeStampOf env policyCreatTime)) b,
                  w.trace ++ preCalls outputDir ++
                    [Event.osCreate
                        (credsFilePath d env.pathSeparator (timeStampOf env policyCreatTime)),
                      Event.logInfo (logLine
                        (credsFilePath d env.pathSeparator (timeStampOf env policyCreatTime))),
                      Event.fileWrite
                        (credsFilePath d env.pathSeparator (timeStampOf env policyCreatTime))
                        b.length,
                      Event.fileClose
                        (credsFilePath d env.pathSeparator (timeStampOf env policyCreatTime))]⟩) := by
  unfold GenerateCredsOutput
  simp only [regOutput]
  cases hm : yamlMarshal env _ with
  | error e => rfl
  | ok b =>
    simp only []
    by_cases hd : outputDir = ""
    · simp only [hd, resolveDir, if_true, preCalls]
      cases hg : env.getwd with
      | error e => simp [World.call]
      | ok d =>
        simp only [credsFilePath_eq]
        refine (generate_tail env _ _ b).trans ?_
        simp only [timeStampOf, World.call]
        split
        · simp
        · split <;> simp
    · simp only [hd, resolveDir, if_false, preCalls, credsFilePath_eq]
      refine (generate_tail env _ _ b).trans ?_
      simp only [timeStampOf, World.call]
      split
      · simp
      · split <;> simp

/-! ## YAML: writing and reading back -/

theorem sortedByKey_perm (less : String → String → Bool) (m : CredsMap) :
    (sortedByKey less m).Perm m :=
  List.perm_insertionSort _ m

theorem entry_kms_field (e : CredsOutputEntry) :
    e.toNode.field "kms_key_id"
      = if e.KMSKeyID = "" then none else some (Node.scalar e.KMSKeyID) := by
  by_cases hk : e.KMSKeyID = "" <;>
    simp [CredsOutputEntry.toNode, structField, Node.field, List.lookup, hk]

theorem entry_keys (e : CredsOutputEntry) :
    e.toNode.keys
      = if e.KMSKeyID = "" then ["secret_manager_arn", "container_names"]
        else ["secret_manager_arn", "kms_key_id", "container_names"] := by
  by_cases hk : e.KMSKeyID = "" <;> simp [CredsOutputEntry.toNode, structField, Node.keys, hk]

/-- C4: `BuildOutputEntry` stores its three arguments as given, and the
mapping written for the entry has a `kms_key_id` field exactly when the key is
not empty, holding that key; with an empty key the mapping has the fields
`secret_manager_arn` and `container_names` only. -/
theorem BuildOutputEntry_kms_key_id (arn key : String) (containers : List String) :
    (BuildOutputEntry arn key containers).CredentialARN = arn
      ∧ (BuildOutputEntry arn key containers).KMSKeyID = key
      ∧ (BuildOutputEntry arn key containers).ContainerNames = containers
      ∧ (BuildOutputEntry arn "" containers).KMSKeyID = ""
      ∧ (BuildOutputEntry arn "" containers).toNode.keys
          = ["secret_manager_arn", "container_names"]
      ∧ (BuildOutputEntry arn key containers).toNode.field "kms_key_id"
          = (if key = "" then none else some (Node.scalar key))
      ∧ ("kms_key_id" ∈ (BuildOutputEntry arn key containers).toNode.keys ↔ key ≠ "")
      ∧ (BuildOutputEntry arn key containers).toNode.field "secret_manager_arn"
          = some (Node.scalar arn)
      ∧ (BuildOutputEntry arn key containers).toNode.field "container_names"
          = some (stringsNode containers) := by
  refine ⟨rfl, rfl, rfl, rfl, ?_, ?_, ?_, ?_, ?_⟩
  · rw [entry_keys]
    simp [BuildOutputEntry]
  · rw [entry_kms_field]
    rfl
  · rw [entry_keys]
    by_cases hk : key = "" <;> simp [BuildOutputEntry, hk]
  · simp [BuildOutputEntry, CredsOutputEntry.toNode, structField, Node.field, List.lookup]
  · by_cases hk : key = "" <;>
      simp [BuildOutputEntry, CredsOutputEntry.toNode, structField, Node.field, List.lookup, hk]

/-! ## Steps, failures and calls -/

theorem callsMade_append (w : World) (files : String → Option Bytes) (l : List Event) :
    callsMade w ⟨files, w.trace ++ l⟩ = l := by
  simp [callsMade]

theorem callsMade_append2 (w : World) (files : String → Option Bytes) (l1 l2 : List Event) :
    callsMade w ⟨files, w.trace ++ l1 ++ l2⟩ = l1 ++ l2 := by
  simp [callsMade, List.append_assoc]

theorem generate_marshal_error (env : Env) (w : World) (creds : CredsMap)
    (roleName outputDir : String) (policyCreatTime : Option Time) (e : Error)
    (hm : yamlMarshal env (regOutput creds roleName) = Except.error e) :
    GenerateCredsOutput env w creds roleName outputDir policyCreatTime
      = (some e, ⟨w.files, w.trace ++ [Event.yamlMarshal]⟩) := by
  rw [generate_outcome, hm]

theorem generate_dir_error (env : Env) (w : World) (creds : CredsMap)
    (roleName outputDir : String) (policyCreatTime : Option Time) (b : Bytes) (e : Error)
    (hm : yamlMarshal env (regOutput creds roleName) = Except.ok b)
    (hd : resolveDir env outputDir = Except.error e) :
    GenerateCredsOutput env w creds roleName outputDir policyCreatTime
      = (some e, ⟨w.files, w.trace ++ [Event.yamlMarshal, Event.osGetwd]⟩) := by
  rw [generate_outcome, hm]
  simp only [hd]

theorem generate_open_error (env : Env) (w : World) (creds : CredsMap)
    (roleName outputDir : String) (policyCreatTime : Option Time) (b : Bytes) (d : String)
    (e : Error)
    (hm : yamlMarshal env (regOutput creds roleName) = Except.ok b)
    (hd : resolveDir env outputDir = Except.ok d)
    (ho : env.openErr (credsFilePath d env.pathSeparator (timeStampOf env policyCreatTime))
      = some e) :
    GenerateCredsOutput env w creds roleName outputDir policyCreatTime
      = (some e, ⟨w.files, w.trace ++ preCalls outputDir ++
          [Event.osCreate
            (credsFilePath d env.pathSeparator (timeStampOf env policyCreatTime))]⟩) := by
  rw [generate_outcome, hm]
  simp only [hd, ho]

theorem generate_write_error (env : Env) (w : World) (creds : CredsMap)
    (roleName outputDir : String) (policyCreatTime : Option Time) (b : Bytes) (d : String)
    (n : Nat) (e : Error)
    (hm : yamlMarshal env (regOutput creds roleName) = Except.ok b)
    (hd : resolveDir env outputDir = Except.ok d)
    (ho : env.openErr (credsFilePath d env.pathSeparator (timeStampOf env policyCreatTime))
      = none)
    (hw : env.writeErr (credsFilePath d env.pathSeparator (timeStampOf env policyCreatTime)) b
      = some (n, e)) :
    GenerateCredsOutput env w creds roleName outputDir policyCreatTime
      = (some e,
          ⟨filesWith w.files
              (credsFilePath d env.pathSeparator (timeStampOf env policyCreatTime)) (b.take n),
            w.trace ++ preCalls outputDir ++
              [Event.osCreate
                  (credsFilePath d env.pathSeparator (timeStampOf env policyCreatTime)),
                Event.logInfo (logLine
                  (credsFilePath d env.pathSeparator (timeStampOf env policyCreatTime))),
                Event.fileWrite
                  (credsFilePath d env.pathSeparator (timeStampOf env policyCreatTime))
                  (b.take n).length,
                Event.fileClose
                  (credsFilePath d env.pathSeparator (timeStampOf env policyCreatTime))]⟩) := by
  rw [generate_outcome, hm]
  simp only [hd, ho, hw]

theorem generate_ok (env : Env) (w : World) (creds : CredsMap)
    (roleName outputDir : String) (policyCreatTime : Option Time) (b : Bytes) (d : String)
    (hm : yamlMarshal env (regOutput creds roleName) = Except.ok b)
    (hd : resolveDir env outputDir = Except.ok d)
    (ho : env.openErr (credsFilePath d env.pathSeparator (timeStampOf env policyCreatTime))
      = none)
    (hw : env.writeErr (credsFilePath d env.pathSeparator (timeStampOf env policyCreatTime)) b
      = none) :
    GenerateCredsOutput env w creds roleName outputDir policyCreatTime
      = (none,
          ⟨filesWith w.files
              (credsFilePath d env.pathSeparator (timeStampOf env policyCreatTime)) b,
            w.trace ++ preCalls outputDir ++
              [Event.osCreate
                  (credsFilePath d env.pathSeparator (timeStampOf env policyCreatTime)),
                Event.logInfo (logLine
                  (credsFilePath d env.pathSeparator (timeStampOf env policyCreatTime))),
                Event.fileWrite
                  (credsFilePath d env.pathSeparator (timeStampOf env policyCreatTime))
                  b.length,
                Event.fileClose
                  (credsFilePath d env.pathSeparator (timeStampOf env policyCreatTime))]⟩) := by
  rw [generate_outcome, hm]
  simp only [hd, ho, hw]

/-- The error a call returns is the error of the first failing step, whatever
the world it runs in. -/
theorem generate_error (env : Env) (w : World) (creds : CredsMap)
    (roleName outputDir : String) (policyCreatTime : Option Time) :
    (GenerateCredsOutput env w creds roleName outputDir policyCreatTime).1
      = firstFailure env creds roleName outputDir policyCreatTime := by
  rw [generate_outcome]
  unfold firstFailure
  simp only [credsFilePath]
  cases yamlMarshal env (regOutput creds roleName) with
  | error e => rfl
  | ok b =>
    cases resolveDir env outputDir with
    | error e => rfl
    | ok d =>
      simp only []
      split
      · rfl
      · split <;> simp_all

/-- A successful call went through all four steps. -/
theorem generate_success (env : Env) (w : World) (creds : CredsMap)
    (roleName outputDir : String) (policyCreatTime : Option Time)
    (hok : (GenerateCredsOutput env w creds roleName outputDir policyCreatTime).1 = none) :
    ∃ b d, yamlMarshal env (regOutput creds roleName) = Except.ok b
      ∧ resolveDir env outputDir = Except.ok d
      ∧ env.openErr (credsFilePath d env.pathSeparator (timeStampOf env policyCreatTime)) = none
      ∧ env.writeErr (credsFilePath d env.pathSeparator (timeStampOf env policyCreatTime)) b
          = none := by
  rw [generate_error] at hok
  unfold firstFailure at hok
  cases hm : yamlMarshal env (regOutput creds roleName) with
  | error e => simp [hm] at hok
  | ok b =>
    cases hd : resolveDir env outputDir with
    | error e => simp [hm, hd] at hok
    | ok d =>
      simp only [hm, hd] at hok
      refine ⟨b, d, rfl, rfl, ?_⟩
      simp only [credsFilePath]
      cases ho : env.openErr (d ++ String.singleton env.pathSeparator
          ++ credsFileName (timeStampOf env policyCreatTime)) with
      | some e => simp [ho] at hok
      | none =>
        simp only [ho] at hok
        refine ⟨rfl, ?_⟩
        cases hw : env.writeErr (d ++ String.singleton env.pathSeparator
            ++ credsFileName (timeStampOf env policyCreatTime)) b with
        | some ne => simp [hw] at hok
        | none => rfl

theorem preCalls_created (outputDir : String) :
    (preCalls outputDir).filterMap Event.created = [] := by
  unfold preCalls
  split <;> rfl

theorem preCalls_logged (outputDir : String) :
    (preCalls outputDir).filterMap Event.logged = [] := by
  unfold preCalls
  split <;> rfl

/-- Once serialization and directory resolution have succeeded the calls are
those before `os.Create`, the `os.Create` itself, and then only logging,
writing and closing. -/
theorem generate_calls (env : Env) (w : World) (creds : CredsMap)
    (roleName outputDir : String) (policyCreatTime : Option Time) (b : Bytes) (d : String)
    (hm : yamlMarshal env (regOutput creds roleName) = Except.ok b)
    (hd : resolveDir env outputDir = Except.ok d) :
    ∃ rest, callsMade w (GenerateCredsOutput env w creds roleName outputDir policyCreatTime).2
        = preCalls outputDir ++ Event.osCreate
            (credsFilePath d env.pathSeparator (timeStampOf env policyCreatTime)) :: rest
      ∧ rest.filterMap Event.created = [] ∧ Event.osGetwd ∉ rest := by
  cases ho : env.openErr (credsFilePath d env.pathSeparator (timeStampOf env policyCreatTime)) with
  | some e =>
    rw [generate_open_error env w creds roleName outputDir policyCreatTime b d e hm hd ho,
      callsMade_append2]
    exact ⟨[], rfl, rfl, by simp⟩
  | none =>
    cases hw : env.writeErr
        (credsFilePath d env.pathSeparator (timeStampOf env policyCreatTime)) b with
    | some ne =>
      obtain ⟨n, e⟩ := ne
      rw [generate_write_error env w creds roleName outputDir policyCreatTime b d n e hm hd ho hw,
        callsMade_append2]
      exact ⟨_, rfl, rfl, by simp⟩
    | none =>
      rw [generate_ok env w creds roleName outputDir policyCreatTime b d hm hd ho hw,
        callsMade_append2]
      exact ⟨_, rfl, rfl, by simp⟩

theorem generate_created (env : Env) (w : World) (creds : CredsMap)
    (roleName outputDir : String) (policyCreatTime : Option Time) (b : Bytes) (d : String)
    (hm : yamlMarshal env (regOutput creds roleName) = Except.ok b)
    (hd : resolveDir env outputDir = Except.ok d) :
    (callsMade w (GenerateCredsOutput env w creds roleName outputDir
        policyCreatTime).2).filterMap Event.created
      = [credsFilePath d env.pathSeparator (timeStampOf env policyCreatTime)] := by
  obtain ⟨rest, hc, hr, -⟩ :=
    generate_calls env w creds roleName outputDir policyCreatTime b d hm hd
  rw [hc, List.filterMap_append, preCalls_created, List.filterMap_cons]
  simp [Event.created, hr]

/-- C7: the error returned is the error of the first failing step in the
order serialization, directory resolution, file creation, write, and `nil`
exactly when all four succeed; after a failed serialization or directory
resolution no file is created (the calls stop there and the files are as
before), and after a failed creation nothing is logged or written. -/
theorem error_of_first_failing_step (env : Env) (w : World) (creds : CredsMap)
    (roleName outputDir : String) (policyCreatTime : Option Time) :
    (GenerateCredsOutput env w creds roleName outputDir policyCreatTime).1
        = firstFailure env creds roleName outputDir policyCreatTime
      ∧ ((GenerateCredsOutput env w creds roleName outputDir policyCreatTime).1 = none ↔
          ∃ b d, yamlMarshal env (regOutput creds roleName) = Except.ok b
            ∧ resolveDir env outputDir = Except.ok d
            ∧ env.openErr (credsFilePath d env.pathSeparator (timeStampOf env policyCreatTime))
                = none
            ∧ env.writeErr (credsFilePath d env.pathSeparator (timeStampOf env policyCreatTime))
                b = none)
      ∧ (∀ e, yamlMarshal env (regOutput creds roleName) = Except.error e →
          (GenerateCredsOutput env w creds roleName outputDir policyCreatTime).1 = some e
            ∧ callsMade w (GenerateCredsOutput env w creds roleName outputDir policyCreatTime).2
                = [Event.yamlMarshal]
            ∧ (GenerateCredsOutput env w creds roleName outputDir policyCreatTime).2.files
                = w.files)
      ∧ (∀ b e, yamlMarshal env (regOutput creds roleName) = Except.ok b →
          resolveDir env outputDir = Except.error e →
          (GenerateCredsOutput env w creds roleName outputDir policyCreatTime).1 = some e
            ∧ callsMade w (GenerateCredsOutput env w creds roleName outputDir policyCreatTime).2
                = [Event.yamlMarshal, Event.osGetwd]
            ∧ (GenerateCredsOutput env w creds roleName outputDir policyCreatTime).2.files
                = w.files)
      ∧ (∀ b d e, yamlMarshal env (regOutput creds roleName) = Except.ok b →
          resolveDir env outputDir = Except.ok d →
          env.openErr (credsFilePath d env.pathSeparator (timeStampOf env policyCreatTime))
            = some e →
          (GenerateCredsOutput env w creds roleName outputDir policyCreatTime).1 = some e
            ∧ callsMade w (GenerateCredsOutput env w creds roleName outputDir policyCreatTime).2
                = preCalls outputDir ++ [Event.osCreate
                    (credsFilePath d env.pathSeparator (timeStampOf env policyCreatTime))]
            ∧ (GenerateCredsOutput env w creds roleName outputDir policyCreatTime).2.files
                = w.files)
      ∧ (∀ b d n e, yamlMarshal env (regOutput creds roleName) = Except.ok b →
          resolveDir env outputDir = Except.ok d →
          env.openErr (credsFilePath d env.pathSeparator (timeStampOf env policyCreatTime))
            = none →
          env.writeErr (credsFilePath d env.pathSeparator (timeStampOf env policyCreatTime)) b
            = some (n, e) →
          (GenerateCredsOutput env w creds roleName outputDir policyCreatTime).1 = some e) := by
  refine ⟨generate_error _ _ _ _ _ _, ⟨generate_success _ _ _ _ _ _, ?_⟩, ?_, ?_, ?_, ?_⟩
  · rintro ⟨b, d, hm, hd, ho, hw⟩
    rw [generate_ok env w creds roleName outputDir policyCreatTime b d hm hd ho hw]
  · intro e hm
    rw [generate_marshal_error env w creds roleName outputDir policyCreatTime e hm]
    exact ⟨rfl, callsMade_append _ _ _, rfl⟩
  · intro b e hm hd
    rw [generate_dir_error env w creds roleName outputDir policyCreatTime b e hm hd]
    exact ⟨rfl, callsMade_append _ _ _, rfl⟩
  · intro b d e hm hd ho
    rw [generate_open_error env w creds roleName outputDir policyCreatTime b d e hm hd ho]
    exact ⟨rfl, callsMade_append2 _ _ _ _, rfl⟩
  · intro b d n e hm hd ho hw
    rw [generate_write_error env w creds roleName outputDir policyCreatTime b d n e hm hd ho hw]

/-- C8 (amended): the call logs exactly one line, naming the file, once the
file is created, so when it succeeds and also when the write then fails; it
logs nothing when serialization, directory resolution or file creation
fails. -/
theorem log_line_once_file_is_created (env : Env) (w : World) (creds : CredsMap)
    (roleName outputDir : String) (policyCreatTime : Option Time) :
    ((GenerateCredsOutput env w creds roleName outputDir policyCreatTime).1 = none →
        ∃ name,
          (callsMade w (GenerateCredsOutput env w creds roleName outputDir
              policyCreatTime).2).filterMap Event.created = [name]
            ∧ (callsMade w (GenerateCredsOutput env w creds roleName outputDir
                policyCreatTime).2).filterMap Event.logged
              = ["Writing registry credential output to new file " ++ name])
      ∧ (∀ b d n e, yamlMarshal env (regOutput creds roleName) = Except.ok b →
          resolveDir env outputDir = Except.ok d →
          env.openErr (credsFilePath d env.pathSeparator (timeStampOf env policyCreatTime))
            = none →
          env.writeErr (credsFilePath d env.pathSeparator (timeStampOf env policyCreatTime)) b
            = some (n, e) →
          (callsMade w (GenerateCredsOutput env w creds roleName outputDir
              policyCreatTime).2).filterMap Event.logged
            = ["Writing registry credential output to new file "
                ++ credsFilePath d env.pathSeparator (timeStampOf env policyCreatTime)])
      ∧ (∀ e, yamlMarshal env (regOutput creds roleName) = Except.error e →
          (callsMade w (GenerateCredsOutput env w creds roleName outputDir
              policyCreatTime).2).filterMap Event.logged = [])
      ∧ (∀ b e, yamlMarshal env (regOutput creds roleName) = Except.ok b →
          resolveDir env outputDir = Except.error e →
          (callsMade w (GenerateCredsOutput env w creds roleName outputDir
              policyCreatTime).2).filterMap Event.logged = [])
      ∧ (∀ b d e, yamlMarshal env (regOutput creds roleName) = Except.ok b →
          resolveDir env outputDir = Except.ok d →
          env.openErr (credsFilePath d env.pathSeparator (timeStampOf env policyCreatTime))
            = some e →
          (callsMade w (GenerateCredsOutput env w creds roleName outputDir
              policyCreatTime).2).filterMap Event.logged = []) := by
  refine ⟨?_, ?_, ?_, ?_, ?_⟩
  · intro hok
    obtain ⟨b, d, hm, hd, ho, hw⟩ := generate_success _ _ _ _ _ _ hok
    rw [generate_ok env w creds roleName outputDir policyCreatTime b d hm hd ho hw,
      callsMade_append2]
    refine ⟨credsFilePath d env.pathSeparator (timeStampOf env policyCreatTime), ?_, ?_⟩
    · simp [List.filterMap_append, preCalls_created, Event.created]
    · simp [List.filterMap_append, preCalls_logged, Event.logged, logLine]
  · intro b d n e hm hd ho hw
    rw [generate_write_error env w creds roleName outputDir policyCreatTime b d n e hm hd ho hw,
      callsMade_append2]
    simp [List.filterMap_append, preCalls_logged, Event.logged, logLine]
  · intro e hm
    rw [generate_marshal_error env w creds roleName outputDir policyCreatTime e hm,
      callsMade_append]
    rfl
  · intro b e hm hd
    rw [generate_dir_error env w creds roleName outputDir policyCreatTime b e hm hd,
      callsMade_append]
    rfl
  · intro b d e hm hd ho
    rw [generate_open_error env w creds roleName outputDir policyCreatTime b d e hm hd ho,
      callsMade_append2]
    simp [List.filterMap_append, preCalls_logged, Event.logged]

/-- C6: with an empty `outputDir` the working directory is read and the file
is created in it; with a non-empty `outputDir` the working directory is not
read, the file is created under `outputDir` as given, and the call does the
same whatever the working-directory lookup would have answered. -/
theorem target_directory (env : Env) (w : World) (creds : CredsMap)
    (roleName outputDir : String) (policyCreatTime : Option Time) :
    (outputDir = "" → ∀ b wd, yamlMarshal env (regOutput creds roleName) = Except.ok b →
        env.getwd = Except.ok wd →
        Event.osGetwd ∈ callsMade w
            (GenerateCredsOutput env w creds roleName outputDir policyCreatTime).2
          ∧ (callsMade w (GenerateCredsOutput env w creds roleName outputDir
              policyCreatTime).2).filterMap Event.created
            = [wd ++ String.singleton env.pathSeparator
                ++ credsFileName (timeStampOf env policyCreatTime)])
      ∧ (outputDir ≠ "" →
          Event.osGetwd ∉ callsMade w
              (GenerateCredsOutput env w creds roleName outputDir policyCreatTime).2
            ∧ (∀ b, yamlMarshal env (regOutput creds roleName) = Except.ok b →
                (callsMade w (GenerateCredsOutput env w creds roleName outputDir
                    policyCreatTime).2).filterMap Event.created
                  = [outputDir ++ String.singleton env.pathSeparator
                      ++ credsFileName (timeStampOf env policyCreatTime)])
            ∧ ∀ g : Except Error String,
                GenerateCredsOutput { env with getwd := g } w creds roleName outputDir
                    policyCreatTime
                  = GenerateCredsOutput env w creds roleName outputDir policyCreatTime) := by
  constructor
  · intro hempty b wd hm hg
    have hd : resolveDir env outputDir = Except.ok wd := by simp [resolveDir, hempty, hg]
    refine ⟨?_, generate_created env w creds roleName outputDir policyCreatTime b wd hm hd⟩
    obtain ⟨rest, hc, -, -⟩ :=
      generate_calls env w creds roleName outputDir policyCreatTime b wd hm hd
    rw [hc]
    simp [preCalls, hempty]
  · intro hne
    have hd : resolveDir env outputDir = Except.ok outputDir := by simp [resolveDir, hne]
    refine ⟨?_, ?_, ?_⟩
    · cases hm : yamlMarshal env (regOutput creds roleName) with
      | error e =>
        rw [generate_marshal_error env w creds roleName outputDir policyCreatTime e hm,
          callsMade_append]
        simp
      | ok b =>
        obtain ⟨rest, hc, -, hr⟩ :=
          generate_calls env w creds roleName outputDir policyCreatTime b outputDir hm hd
        rw [hc]
        simp [preCalls, hne, hr]
    · intro b hm
      exact generate_created env w creds roleName outputDir policyCreatTime b outputDir hm hd
    · intro g
      rw [generate_outcome, generate_outcome]
      have hd2 : resolveDir { env with getwd := g } outputDir = Except.ok outputDir := by
        simp [resolveDir, hne]
      rw [hd, hd2]
      rfl

/-! ## The file path -/

theorem appendInt_twoDigits (n : Nat) (h : n < 100) : appendInt [] (n : Int) 2 = twoDigits n := by
  rw [appendInt_two n h]
  have e : n / 10 % 10 = n / 10 := by omega
  simp [twoDigits, e]

theorem Format_eq_specTimestamp (t : Time) (hy : 0 ≤ t.Date.1 ∧ t.Date.1 ≤ 9999) :
    t.Format ECSCredFileTimeFmt = specTimestamp t := by
  obtain ⟨tm, td⟩ := absDate_lt t.abs
  obtain ⟨th, tmi, ts⟩ := absClock_lt t.abs
  have tm2 : t.Date.2.1 < 100 := tm
  have td2 : t.Date.2.2 < 100 := td
  have th2 : t.Clock.1 < 100 := by have : t.Clock.1 < 24 := th; omega
  have tmi2 : t.Clock.2.1 < 100 := by have : t.Clock.2.1 < 60 := tmi; omega
  have ts2 : t.Clock.2.2 < 100 := by have : t.Clock.2.2 < 60 := ts; omega
  have hyn : t.Date.1 = ((t.Date.1.toNat : Nat) : Int) := (Int.toNat_of_nonneg hy.1).symm
  have hlt : t.Date.1.toNat < 10000 := by omega
  rw [Format_fmt, hyn, appendInt_four _ hlt, appendInt_twoDigits _ tm2,
    appendInt_twoDigits _ td2, appendInt_twoDigits _ th2, appendInt_twoDigits _ tmi2,
    appendInt_twoDigits _ ts2]
  simp [specTimestamp, fourDigits]

theorem created_path (env : Env) (w : World) (creds : CredsMap)
    (roleName outputDir : String) (policyCreatTime : Option Time) (p : String)
    (h : Event.osCreate p ∈ callsMade w
      (GenerateCredsOutput env w creds roleName outputDir policyCreatTime).2) :
    ∃ d, resolveDir env outputDir = Except.ok d
      ∧ p = credsFilePath d env.pathSeparator (timeStampOf env policyCreatTime) := by
  cases hm : yamlMarshal env (regOutput creds roleName) with
  | error e =>
    rw [generate_marshal_error env w creds roleName outputDir policyCreatTime e hm,
      callsMade_append] at h
    simp at h
  | ok b =>
    cases hd : resolveDir env outputDir with
    | error e =>
      rw [generate_dir_error env w creds roleName outputDir policyCreatTime b e hm hd,
        callsMade_append] at h
      simp at h
    | ok d =>
      refine ⟨d, rfl, ?_⟩
      have hc := generate_created env w creds roleName outputDir policyCreatTime b d hm hd
      have hp : p ∈ (callsMade w (GenerateCredsOutput env w creds roleName outputDir
          policyCreatTime).2).filterMap Event.created :=
        List.mem_filterMap.mpr ⟨_, h, rfl⟩
      rw [hc] at hp
      simpa using hp

/-- C1 (amended): once the document is serialized and the directory `d`
resolved, the one file `GenerateCredsOutput` creates for a supplied creation
time whose year is within 0..9999 is `d`, the path separator,
`ecs-registry-creds`, `_`, the timestamp and `.yml`, the timestamp being the
4-digit year, 2-digit month and day, `T`, 2-digit hour, minute and second and
`Z` of the creation time (read in its own location, so for a time in UTC the
UTC fields). -/
theorem creds_file_path (env : Env) (w : World) (creds : CredsMap)
    (roleName outputDir : String) (t : Time) (b : Bytes) (d : String)
    (hyear : 0 ≤ t.Date.1 ∧ t.Date.1 ≤ 9999)
    (hm : yamlMarshal env (regOutput creds roleName) = Except.ok b)
    (hd : resolveDir env outputDir = Except.ok d) :
    (callsMade w (GenerateCredsOutput env w creds roleName outputDir
        (some t)).2).filterMap Event.created
      = [d ++ String.singleton env.pathSeparator ++ "ecs-registry-creds" ++ "_"
          ++ specTimestamp t ++ ".yml"] := by
  rw [generate_created env w creds roleName outputDir (some t) b d hm hd]
  simp only [credsFilePath, credsFileName, timeStampOf, Format_eq_specTimestamp t hyear,
    ecsCredFileBaseName, String.append_assoc]

/-- C1, at 2023-01-02T03:04:05Z and output directory `/out`: the file created
is `/out/ecs-registry-creds_20230102T030405Z.yml`. -/
theorem creds_file_path_witness :
    (callsMade demoWorld (GenerateCredsOutput demoEnv demoWorld demoCreds "ecsRole" "/out"
        (some utcTime)).2).filterMap Event.created
      = ["/out/ecs-registry-creds_20230102T030405Z.yml"] :=
  (creds_file_path demoEnv demoWorld demoCreds "ecsRole" "/out" utcTime
    (((regOutput demoCreds "ecsRole").toNode demoEnv.keyLess).flow.map Char.toNat) "/out"
    (by decide) rfl rfl).trans (by decide)

/-- C1 as stated fails at 10000-01-01T00:00:00Z, a time in UTC: the year is
written with five digits, so the file created is not the one with a 4-digit
year (the timestamp has 17 characters, not 16). -/
theorem creds_file_path_year_10000 :
    year10000.offset = 0
      ∧ year10000.Date = (10000, 1, 1)
      ∧ (callsMade demoWorld (GenerateCredsOutput demoEnv demoWorld demoCreds "ecsRole" "/out"
          (some year10000)).2).filterMap Event.created
        = ["/out/ecs-registry-creds_100000101T000000Z.yml"]
      ∧ (callsMade demoWorld (GenerateCredsOutput demoEnv demoWorld demoCreds "ecsRole" "/out"
          (some year10000)).2).filterMap Event.created
        ≠ ["/out" ++ String.singleton '/' ++ "ecs-registry-creds" ++ "_"
            ++ specTimestamp year10000 ++ ".yml"]
      ∧ (year10000.Format ECSCredFileTimeFmt).length = 17
      ∧ (specTimestamp year10000).length = 16 := by
  decide

/-- C2 fails on the code: a supplied creation time keeps its own zone.  The
instant 2023-01-02T01:04:05Z supplied in a zone two hours east of UTC names
the file `..._20230102T030405Z.yml`; the same instant in UTC names it
`..._20230102T010405Z.yml`. -/
theorem supplied_time_keeps_its_zone :
    zonedTime.UTC.sec = zonedTime.sec
      ∧ credsFileName zonedTime = "ecs-registry-creds_20230102T030405Z.yml"
      ∧ credsFileName zonedTime.UTC = "ecs-registry-creds_20230102T010405Z.yml"
      ∧ (callsMade demoWorld (GenerateCredsOutput demoEnv demoWorld demoCreds "ecsRole" "/out"
          (some zonedTime)).2).filterMap Event.created
        = ["/out/ecs-registry-creds_20230102T030405Z.yml"]
      ∧ (callsMade demoWorld (GenerateCredsOutput demoEnv demoWorld demoCreds "ecsRole" "/out"
          (some zonedTime.UTC)).2).filterMap Event.created
        = ["/out/ecs-registry-creds_20230102T010405Z.yml"]
      ∧ (callsMade demoWorld (GenerateCredsOutput demoEnv demoWorld demoCreds "ecsRole" "/out"
          none).2).filterMap Event.created
        = ["/out/ecs-registry-creds_20231114T221320Z.yml"] := by
  decide

/-! ## The file's content -/

theorem regOutput_version (less : String → String → Bool) (creds : CredsMap)
    (roleName : String) :
    ((regOutput creds roleName).toNode less).field "version" = some (Node.scalar "1") := by
  simp [regOutput, RegistryCredsOutput.toNode, structField, Node.field, List.lookup]

theorem regOutput_resources (less : String → String → Bool) (creds : CredsMap)
    (roleName : String) :
    ((regOutput creds roleName).toNode less).field "registry_credential_outputs"
      = some (CredResources.toNode less ⟨roleName, creds⟩) := by
  simp [regOutput, RegistryCredsOutput.toNode, structField, Node.field, List.lookup]

theorem resources_role (less : String → String → Bool) (creds : CredsMap) (roleName : String) :
    (CredResources.toNode less ⟨roleName, creds⟩).field "task_execution_role"
      = some (Node.scalar roleName) := by
  simp [CredResources.toNode, structField, Node.field, List.lookup]

theorem resources_credentials (less : String → String → Bool) (creds : CredsMap)
    (roleName : String) :
    (CredResources.toNode less ⟨roleName, creds⟩).field "container_credentials"
      = some (credsMapNode less creds) := by
  simp [CredResources.toNode, structField, Node.field, List.lookup]

theorem credsMapNode_keys (less : String → String → Bool) (creds : CredsMap) :
    (credsMapNode less creds).keys.Perm (creds.map Prod.fst) := by
  have h : (credsMapNode less creds).keys = (sortedByKey less creds).map Prod.fst := by
    simp [credsMapNode, Node.keys, List.map_map, Function.comp_def]
  rw [h]
  exact (sortedByKey_perm less creds).map Prod.fst

/-- C3: a call that succeeds creates exactly one file and leaves every other
file as it was; what the file holds is the emitter's output for a document
whose `version` is `"1"`, whose `registry_credential_outputs` has
`task_execution_role` equal to `roleName`, and whose `container_credentials`
mapping has exactly the keys of the input mapping (for an empty mapping too). -/
theorem written_document (env : Env) (w : World) (creds : CredsMap)
    (roleName outputDir : String) (policyCreatTime : Option Time)
    (hok : (GenerateCredsOutput env w creds roleName outputDir policyCreatTime).1 = none) :
    ∃ name bytes resources credentials,
      (callsMade w (GenerateCredsOutput env w creds roleName outputDir
          policyCreatTime).2).filterMap Event.created = [name]
        ∧ (GenerateCredsOutput env w creds roleName outputDir policyCreatTime).2.files name
            = some bytes
        ∧ (∀ p, p ≠ name →
            (GenerateCredsOutput env w creds roleName outputDir policyCreatTime).2.files p
              = w.files p)
        ∧ env.yamlEmit ((regOutput creds roleName).toNode env.keyLess) = Except.ok bytes
        ∧ ((regOutput creds roleName).toNode env.keyLess).field "version"
            = some (Node.scalar "1")
        ∧ ((regOutput creds roleName).toNode env.keyLess).field "registry_credential_outputs"
            = some resources
        ∧ resources.field "task_execution_role" = some (Node.scalar roleName)
        ∧ resources.field "container_credentials" = some credentials
        ∧ credentials.keys.Perm (creds.map Prod.fst) := by
  obtain ⟨b, d, hm, hd, ho, hw⟩ := generate_success _ _ _ _ _ _ hok
  refine ⟨credsFilePath d env.pathSeparator (timeStampOf env policyCreatTime), b,
    CredResources.toNode env.keyLess ⟨roleName, creds⟩, credsMapNode env.keyLess creds,
    generate_created env w creds roleName outputDir policyCreatTime b d hm hd, ?_, ?_, hm,
    regOutput_version _ _ _, regOutput_resources _ _ _, resources_role _ _ _,
    resources_credentials _ _ _, credsMapNode_keys _ _⟩
  · rw [generate_ok env w creds roleName outputDir policyCreatTime b d hm hd ho hw]
    simp [filesWith]
  · intro p hp
    rw [generate_ok env w creds roleName outputDir policyCreatTime b d hm hd ho hw]
    simp [filesWith, hp]

/-- C3, at a concrete call: one file, holding the document for `demoCreds` and
`ecsRole`, with the keys `docker.io` and `quay.io`. -/
theorem written_document_witness :
    ∃ name bytes resources credentials,
      (callsMade demoWorld (GenerateCredsOutput demoEnv demoWorld demoCreds "ecsRole" "/out"
          (some utcTime)).2).filterMap Event.created = [name]
        ∧ (GenerateCredsOutput demoEnv demoWorld demoCreds "ecsRole" "/out"
            (some utcTime)).2.files name = some bytes
        ∧ (∀ p, p ≠ name →
            (GenerateCredsOutput demoEnv demoWorld demoCreds "ecsRole" "/out"
              (some utcTime)).2.files p = demoWorld.files p)
        ∧ demoEnv.yamlEmit ((regOutput demoCreds "ecsRole").toNode demoEnv.keyLess)
            = Except.ok bytes
        ∧ ((regOutput demoCreds "ecsRole").toNode demoEnv.keyLess).field "version"
            = some (Node.scalar "1")
        ∧ ((regOutput demoCreds "ecsRole").toNode demoEnv.keyLess).field
            "registry_credential_outputs" = some resources
        ∧ resources.field "task_execution_role" = some (Node.scalar "ecsRole")
        ∧ resources.field "container_credentials" = some credentials
        ∧ credentials.keys.Perm (demoCreds.map Prod.fst) :=
  written_document demoEnv demoWorld demoCreds "ecsRole" "/out" (some utcTime) (by decide)

/-- C9: two calls in a row, in an unchanged environment, with the same
`outputDir` and the same creation time create the same path; what the first
call left behind does not change the outcome of the second, nor do the files
there before change the outcome of the first; after a first call that
succeeded the second can fail only at serialization or at the write, not at
the creation of the file; and when the second call succeeds the file holds
exactly the bytes of the second document. -/
theorem second_call_overwrites (env : Env) (w : World) (creds1 creds2 : CredsMap)
    (role1 role2 outputDir : String) (t : Time) :
    (∀ p1 p2,
        Event.osCreate p1 ∈ callsMade w
            (GenerateCredsOutput env w creds1 role1 outputDir (some t)).2 →
        Event.osCreate p2 ∈ callsMade
            (GenerateCredsOutput env w creds1 role1 outputDir (some t)).2
            (GenerateCredsOutput env
              (GenerateCredsOutput env w creds1 role1 outputDir (some t)).2
              creds2 role2 outputDir (some t)).2 →
        p1 = p2)
      ∧ (∀ files, (GenerateCredsOutput env ⟨files, w.trace⟩ creds1 role1 outputDir (some t)).1
          = (GenerateCredsOutput env w creds1 role1 outputDir (some t)).1)
      ∧ (GenerateCredsOutput env
            (GenerateCredsOutput env w creds1 role1 outputDir (some t)).2
            creds2 role2 outputDir (some t)).1
          = (GenerateCredsOutput env w creds2 role2 outputDir (some t)).1
      ∧ ((GenerateCredsOutput env w creds1 role1 outputDir (some t)).1 = none →
          ∀ e, (GenerateCredsOutput env
              (GenerateCredsOutput env w creds1 role1 outputDir (some t)).2
              creds2 role2 outputDir (some t)).1 = some e →
            yamlMarshal env (regOutput creds2 role2) = Except.error e
              ∨ ∃ b n p, yamlMarshal env (regOutput creds2 role2) = Except.ok b
                  ∧ env.writeErr p b = some (n, e))
      ∧ ((GenerateCredsOutput env
            (GenerateCredsOutput env w creds1 role1 outputDir (some t)).2
            creds2 role2 outputDir (some t)).1 = none →
          ∃ p b,
            (callsMade (GenerateCredsOutput env w creds1 role1 outputDir (some t)).2
              (GenerateCredsOutput env
                (GenerateCredsOutput env w creds1 role1 outputDir (some t)).2
                creds2 role2 outputDir (some t)).2).filterMap Event.created = [p]
              ∧ yamlMarshal env (regOutput creds2 role2) = Except.ok b
              ∧ (GenerateCredsOutput env
                  (GenerateCredsOutput env w creds1 role1 outputDir (some t)).2
                  creds2 role2 outputDir (some t)).2.files p = some b) := by
  refine ⟨?_, ?_, ?_, ?_, ?_⟩
  · intro p1 p2 h1 h2
    obtain ⟨d1, hd1, e1⟩ := created_path _ _ _ _ _ _ _ h1
    obtain ⟨d2, hd2, e2⟩ := created_path _ _ _ _ _ _ _ h2
    rw [hd1] at hd2
    cases hd2
    rw [e1, e2]
  · intro files
    rw [generate_error, generate_error]
  · rw [generate_error, generate_error]
  · intro hok1 e he
    obtain ⟨b1, d, -, hd, ho, -⟩ := generate_success _ _ _ _ _ _ hok1
    cases hm : yamlMarshal env (regOutput creds2 role2) with
    | error e2 =>
      rw [generate_marshal_error env _ creds2 role2 outputDir (some t) e2 hm] at he
      left
      exact congrArg Except.error (Option.some.inj he)
    | ok b =>
      right
      cases hw : env.writeErr
          (credsFilePath d env.pathSeparator (timeStampOf env (some t))) b with
      | none =>
        rw [generate_ok env _ creds2 role2 outputDir (some t) b d hm hd ho hw] at he
        cases he
      | some ne =>
        obtain ⟨n, e2⟩ := ne
        rw [generate_write_error env _ creds2 role2 outputDir (some t) b d n e2 hm hd ho hw]
          at he
        have hee : e2 = e := Option.some.inj he
        exact ⟨b, n, credsFilePath d env.pathSeparator (timeStampOf env (some t)), rfl,
          hee ▸ hw⟩
  · intro hok
    obtain ⟨b, d, hm, hd, ho, hw⟩ := generate_success _ _ _ _ _ _ hok
    refine ⟨credsFilePath d env.pathSeparator (timeStampOf env (some t)), b,
      generate_created env _ creds2 role2 outputDir (some t) b d hm hd, hm, ?_⟩
    rw [generate_ok env _ creds2 role2 outputDir (some t) b d hm hd ho hw]
    simp [filesWith]

set_option maxRecDepth 100000 in
/-- C9, at two concrete calls: the first writes the document for `demoCreds`
and `ecsRole`, the second the shorter document for no credentials and role
`r`; afterwards the file holds the second document and nothing else. -/
theorem second_call_overwrites_witness :
    ((GenerateCredsOutput demoEnv
          (GenerateCredsOutput demoEnv demoWorld demoCreds "ecsRole" "/out" (some utcTime)).2
          [] "r" "/out" (some utcTime)).2.files
        "/out/ecs-registry-creds_20230102T030405Z.yml"
      = some (((regOutput [] "r").toNode demoEnv.keyLess).flow.map Char.toNat))
      ∧ (((regOutput [] "r").toNode demoEnv.keyLess).flow.length
          < ((regOutput demoCreds "ecsRole").toNode demoEnv.keyLess).flow.length)
      ∧ ∃ p b,
          (callsMade
            (GenerateCredsOutput demoEnv demoWorld demoCreds "ecsRole" "/out" (some utcTime)).2
            (GenerateCredsOutput demoEnv
              (GenerateCredsOutput demoEnv demoWorld demoCreds "ecsRole" "/out"
                (some utcTime)).2
              [] "r" "/out" (some utcTime)).2).filterMap Event.created = [p]
            ∧ yamlMarshal demoEnv (regOutput [] "r") = Except.ok b
            ∧ (GenerateCredsOutput demoEnv
                (GenerateCredsOutput demoEnv demoWorld demoCreds "ecsRole" "/out"
                  (some utcTime)).2
                [] "r" "/out" (some utcTime)).2.files p = some b :=
  ⟨by decide, by decide,
    (second_call_overwrites demoEnv demoWorld demoCreds [] "ecsRole" "r" "/out" utcTime).2.2.2.2
      (by decide)⟩

/-- C6, where the working directory cannot be resolved: a call with output
directory `/out` does not read it and succeeds, a call with an empty output
directory fails with the lookup's error. -/
theorem target_directory_witness :
    (GenerateCredsOutput noCwdEnv demoWorld demoCreds "ecsRole" "/out" (some utcTime)).1 = none
      ∧ (GenerateCredsOutput noCwdEnv demoWorld demoCreds "ecsRole" "" (some utcTime)).1
          = some "getwd: no such file or directory"
      ∧ (callsMade demoWorld (GenerateCredsOutput demoEnv demoWorld demoCreds "ecsRole" ""
          (some utcTime)).2).filterMap Event.created
        = ["/home/ecs/ecs-registry-creds_20230102T030405Z.yml"]
      ∧ Event.osGetwd ∉ callsMade demoWorld
          (GenerateCredsOutput noCwdEnv demoWorld demoCreds "ecsRole" "/out" (some utcTime)).2
      ∧ (∀ b, yamlMarshal noCwdEnv (regOutput demoCreds "ecsRole") = Except.ok b →
          (callsMade demoWorld (GenerateCredsOutput noCwdEnv demoWorld demoCreds "ecsRole"
              "/out" (some utcTime)).2).filterMap Event.created
            = ["/out" ++ String.singleton noCwdEnv.pathSeparator
                ++ credsFileName (timeStampOf noCwdEnv (some utcTime))])
      ∧ ∀ g : Except Error String,
          GenerateCredsOutput { noCwdEnv with getwd := g } demoWorld demoCreds "ecsRole" "/out"
              (some utcTime)
            = GenerateCredsOutput noCwdEnv demoWorld demoCreds "ecsRole" "/out"
                (some utcTime) :=
  ⟨by decide, by decide, by decide,
    (target_directory noCwdEnv demoWorld demoCreds "ecsRole" "/out" (some utcTime)).2
      (by decide)⟩

/-- C7, where the working directory cannot be resolved and `outputDir` is
empty: the lookup's error is returned after serialization and the lookup, and
no file is touched. -/
theorem error_of_first_failing_step_witness :
    (GenerateCredsOutput noCwdEnv demoWorld demoCreds "ecsRole" "" none).1
        = some "getwd: no such file or directory"
      ∧ callsMade demoWorld (GenerateCredsOutput noCwdEnv demoWorld demoCreds "ecsRole" ""
          none).2 = [Event.yamlMarshal, Event.osGetwd]
      ∧ (GenerateCredsOutput noCwdEnv demoWorld demoCreds "ecsRole" "" none).2.files
          = demoWorld.files :=
  (error_of_first_failing_step noCwdEnv demoWorld demoCreds "ecsRole" "" none).2.2.2.1
    (((regOutput demoCreds "ecsRole").toNode noCwdEnv.keyLess).flow.map Char.toNat)
    "getwd: no such file or directory" rfl rfl

/-- C8 as stated fails where the write fails: the call returns the write's
error, and the line naming the file has been logged. -/
theorem log_line_on_write_failure :
    (GenerateCredsOutput fullDiskEnv demoWorld demoCreds "ecsRole" "/out" (some utcTime)).1
        = some "no space left on device"
      ∧ (callsMade demoWorld (GenerateCredsOutput fullDiskEnv demoWorld demoCreds "ecsRole"
          "/out" (some utcTime)).2).filterMap Event.logged
        = ["Writing registry credential output to new file "
            ++ "/out/ecs-registry-creds_20230102T030405Z.yml"] := by
  decide

/-- C8 (amended), at a call that succeeds: one line, naming the one file
created. -/
theorem log_line_once_file_is_created_witness :
    ∃ name,
      (callsMade demoWorld (GenerateCredsOutput demoEnv demoWorld demoCreds "ecsRole" "/out"
          (some utcTime)).2).filterMap Event.created = [name]
        ∧ (callsMade demoWorld (GenerateCredsOutput demoEnv demoWorld demoCreds "ecsRole"
            "/out" (some utcTime)).2).filterMap Event.logged
          = ["Writing registry credential output to new file " ++ name] :=
  (log_line_once_file_is_created demoEnv demoWorld demoCreds "ecsRole" "/out"
    (some utcTime)).1 (by decide)

end Regcreds
